import Mathlib

/-!
# hn-posts-scoring: the `etl/load.go` bootstrap

A shallow embedding of `src/etl/load.go`.  The program talks to a database
through `database/sql`; each driver call whose result the program inspects is
answered by a `World` value, and a run produces the list of calls and log
lines it made (`Event`) together with the way the process ended.

Go semantics used by the embedding:

* `log.Fatal(v)` prints `v` and calls `os.Exit(1)`; `os.Exit` ends the process
  at once and deferred functions are not run;
* `log.Println` prints one line;
* a deferred call runs when the surrounding function returns normally;
* returning from `main` ends the process with status 0;
* `sql.Open` looks up the driver and lets it check the data source name; it
  does not dial.  The connection is made by the first call that needs one,
  here `db.Query`, which returns the error when the host cannot be reached.
-/

namespace HnEtl

/-! ## Configuration constants (`load.go`, lines 12-18) -/

def HOST : String := "localhost"
def PORT : Nat := 54320
def USERNAME : String := "postgres"
def PASSWORD : String := "password"
def DBNAME : String := "hn_db"

/-! ## `fmt.Sprintf` restricted to the verbs `%s` and `%d` -/

/-- An operand of `fmt.Sprintf`. -/
inductive Arg where
  | str (s : String)
  | int (n : Nat)
  deriving DecidableEq, Repr

/-- The verbs `%s` and `%d` consume one operand each; every other character of
the format is copied. -/
def Sprintf : List Char → List Arg → List Char
  | '%' :: 's' :: fmt, Arg.str s :: args => s.data ++ Sprintf fmt args
  | '%' :: 'd' :: fmt, Arg.int n :: args => (Nat.repr n).data ++ Sprintf fmt args
  | c :: fmt, args => c :: Sprintf fmt args
  | [], _ => []

/-- The data source name built in `_connect` (lines 25-27). -/
def psqlInfo : String :=
  String.mk (Sprintf ("host=%s port=%d user=%s " ++ "password=%s dbname=%s sslmode=disable").data
    [Arg.str HOST, Arg.int PORT, Arg.str USERNAME, Arg.str PASSWORD, Arg.str DBNAME])

/-! ## Calls and log lines of a run -/

/-- What `rows.Scan(&tableName)` does for one catalog row. -/
inductive ScanOutcome where
  | decoded (name : String)
  | failed (err : String)
  deriving DecidableEq, Repr

/-- The observable steps of a run, each call with the error it returned
(`none` for a nil error). -/
inductive Event where
  | sqlOpen (driverName dataSourceName : String) (err : Option String)
  | dbQuery (query : String) (err : Option String)
  | rowsNext (more : Bool)
  | rowsScan (err : Option String)
  | rowsClose
  | dbPrepare (query : String) (err : Option String)
  | stmtExec (query : String) (err : Option String)
  | stmtClose
  | dbClose
  | logPrintln (line : String)
  | logFatal (msg : String)
  deriving DecidableEq, Repr

/-- The answers of the driver and the database to the calls of one run. -/
structure World where
  openErr : Option String
  queryErr : Option String
  rows : List ScanOutcome
  prepareErr : Option String
  execErr : Option String
  deriving Repr

/-- The worlds a run of this program can meet.  The driver `postgres` that
line 29 opens is registered by the import of line 7 and the data source name
is a well-formed constant, so `sql.Open`, which does not dial, returns no
error. -/
def World.canOccur (w : World) : Prop :=
  w.openErr = none

instance (w : World) : Decidable w.canOccur :=
  inferInstanceAs (Decidable (w.openErr = none))

/-! ## `_getTables` (lines 77-101) -/

/-- The catalog query, the variable `query` of `_getTables` (lines 81-84). -/
def query : String :=
  "SELECT table_name\n\tFROM information_schema.tables\n\tWHERE table_schema = \x27public\x27\n\tORDER BY table_name;"

/-- The loop `for rows.Next() { ... }` of `_getTables` (lines 91-97), on the
rows still to come, the current `tableName` and the current `tables`.  The
result is `none` when `log.Fatal` ended the process (the slice had already
been extended by the stale `tableName` at that point). -/
def scanLoop : List ScanOutcome → String → List String → List Event × Option (List String)
  | [], _, tables => ([Event.rowsNext false], some tables)
  | ScanOutcome.decoded name :: rest, _, tables =>
      let r := scanLoop rest name (tables ++ [name])
      (Event.rowsNext true :: Event.rowsScan none :: r.1, r.2)
  | ScanOutcome.failed e :: _, _, _ =>
      ([Event.rowsNext true, Event.rowsScan (some e), Event.logFatal e], none)

/-- The function `_getTables`: the events it causes and the slice it returns,
`none` when the process ended inside it. -/
def _getTables (w : World) : List Event × Option (List String) :=
  match w.queryErr with
  | some e => ([Event.dbQuery query (some e), Event.logFatal e], none)
  | none =>
    match scanLoop w.rows "" [] with
    | (evs, none) => (Event.dbQuery query none :: evs, none)
    | (evs, some tables) =>
        (Event.dbQuery query none :: evs ++ [Event.rowsClose], some tables)

/-! ## `_createTable` (lines 39-75) -/

/-- The loop of lines 42-47: the flag starts `false` and is set on every
element equal to `tableName`. -/
def postsTableExists (tableName : String) (tables : List String) : Bool :=
  tables.foldl (fun found value => if value = tableName then true else found) false

/-- The statement text passed to `db.Prepare` (lines 52-58). -/
def createStatement (tableName : String) : String :=
  "CREATE TABLE IF NOT EXISTS " ++ tableName ++ " (\n\t\t\tid SERIAL PRIMARY KEY,\n\t\t\ttitle TEXT,\n\t\t\turl TEXT,\n\t\t\ttype TEXT,\n\t\t\tscore INT,\n\t\t\ttimestamp TIMESTAMP);"

/-- The function `_createTable`: the events it causes, and `some ()` when it
returns, `none` when the process ended inside it. -/
def _createTable (w : World) : List Event × Option Unit :=
  let tableName := "posts"
  match _getTables w with
  | (evs, none) => (evs, none)
  | (evs, some tables) =>
    if postsTableExists tableName tables then
      (evs ++ [Event.logPrintln ("Table " ++ tableName ++ " already created")], some ())
    else
      match w.prepareErr with
      | some e => (evs ++ [Event.dbPrepare (createStatement tableName) (some e), Event.logFatal e], none)
      | none =>
        match w.execErr with
        | some e =>
            (evs ++ [Event.dbPrepare (createStatement tableName) none,
                     Event.stmtExec (createStatement tableName) (some e), Event.logFatal e], none)
        | none =>
            (evs ++ [Event.dbPrepare (createStatement tableName) none,
                     Event.stmtExec (createStatement tableName) none,
                     Event.logPrintln ("Table " ++ tableName ++ " succesfully created"),
                     Event.stmtClose], some ())

/-! ## `_connect` and `main` (lines 20-37) -/

/-- The function `_connect`. -/
def _connect (w : World) : List Event × Option Unit :=
  match w.openErr with
  | some e => ([Event.sqlOpen "postgres" psqlInfo (some e), Event.logFatal e], none)
  | none =>
    match _createTable w with
    | (evs, none) => (Event.sqlOpen "postgres" psqlInfo none :: evs, none)
    | (evs, some _) => (Event.sqlOpen "postgres" psqlInfo none :: evs ++ [Event.dbClose], some ())

/-- A finished run: what happened and the exit status of the process. -/
structure Run where
  trace : List Event
  exitStatus : Nat
  deriving DecidableEq, Repr

/-- The program: `main` calls `_connect`; the status is 0 when `main` returns
and 1 when `log.Fatal` ended the process. -/
def main (w : World) : Run :=
  match _connect w with
  | (evs, some _) => { trace := evs, exitStatus := 0 }
  | (evs, none) => { trace := evs, exitStatus := 1 }

/-! ## The database seen by the program

The claims about the effect of the CREATE statement are stated against a
database modelled as the tables of its `public` schema.  This is the
environment of the program, not code of the repository: the catalog query
lists the table names in ascending order, and `CREATE TABLE IF NOT EXISTS`
adds the table it describes unless a table of that name is there already. -/

/-- One column definition of a CREATE TABLE statement. -/
structure Column where
  name : String
  type : String
  constraints : List String
  deriving DecidableEq, Repr

/-- A table: its name and its columns in order. -/
structure Table where
  name : String
  columns : List Column
  deriving DecidableEq, Repr

/-- Blank characters between the words of a statement. -/
def isBlank (c : Char) : Bool :=
  c = ' ' || c = '\n' || c = '\t' || c = '\r'

/-- Characters that are words of their own. -/
def isPunct (c : Char) : Bool :=
  c = '(' || c = ')' || c = ',' || c = ';'

/-- The word collected so far, if any. -/
def flushWord (cur : List Char) : List String :=
  if cur = [] then [] else [String.mk cur]

/-- Splits a statement text into words and punctuation. -/
def tokenize : List Char → List Char → List String
  | [], cur => flushWord cur
  | c :: cs, cur =>
      if isBlank c then flushWord cur ++ tokenize cs []
      else if isPunct c then flushWord cur ++ String.mk [c] :: tokenize cs []
      else tokenize cs (cur ++ [c])

/-- A column definition: name, type, then the words of its constraints. -/
def parseColumn : List String → Option Column
  | name :: type :: constraints => some { name := name, type := type, constraints := constraints }
  | _ => none

/-- The column list of a CREATE TABLE statement after its opening bracket:
definitions separated by commas, closed by a bracket and an optional
semicolon. -/
def parseColumns : List String → List String → Option (List Column)
  | [], _ => none
  | tok :: rest, cur =>
      if tok = ")" then
        if rest = [";"] ∨ rest = [] then (parseColumn cur).map (fun c => [c]) else none
      else if tok = "," then
        match parseColumn cur, parseColumns rest [] with
        | some c, some cs => some (c :: cs)
        | _, _ => none
      else parseColumns rest (cur ++ [tok])

/-- Reads a `CREATE TABLE IF NOT EXISTS name (columns);` statement. -/
def parseCreateTable (sql : String) : Option Table :=
  match tokenize sql.data [] with
  | "CREATE" :: "TABLE" :: "IF" :: "NOT" :: "EXISTS" :: name :: "(" :: rest =>
      (parseColumns rest []).map (fun cols => { name := name, columns := cols })
  | _ => none

/-- A database state: the tables of the `public` schema, no two of the same
name. -/
structure Database where
  tables : List Table
  uniqueNames : (tables.map Table.name).Nodup

/-- The names of the tables of a database. -/
def Database.names (db : Database) : List String :=
  db.tables.map Table.name

/-- The answer to the catalog query: the table names in ascending order. -/
def Database.catalog (db : Database) : List String :=
  db.names.insertionSort (fun a b => a ≤ b)

/-- Executing a statement: a `CREATE TABLE IF NOT EXISTS` statement adds its
table when no table has that name; nothing else changes the tables. -/
def Database.exec (db : Database) (sql : String) : Database :=
  match parseCreateTable sql with
  | none => db
  | some t =>
    if h : t.name ∈ db.tables.map Table.name then db
    else
      { tables := db.tables ++ [t]
        uniqueNames := by
          rw [List.map_append, List.map_singleton]
          exact List.Nodup.append db.uniqueNames (List.nodup_singleton _)
            (by simpa [List.Disjoint] using h) }

/-- The database after the statements a run executed successfully. -/
def Database.after (db : Database) : List Event → Database
  | [] => db
  | Event.stmtExec sql none :: evs => (db.exec sql).after evs
  | _ :: evs => db.after evs

/-- The world in which the program runs against `db` and no call fails. -/
def worldOf (db : Database) : World :=
  { openErr := none
    queryErr := none
    rows := db.catalog.map ScanOutcome.decoded
    prepareErr := none
    execErr := none }

/-- The empty database. -/
def Database.empty : Database :=
  { tables := [], uniqueNames := List.nodup_nil }

/-! ## Views of a trace -/

/-- The statement texts sent to the database, in order: the text of each
`db.Query` and each `db.Prepare`. -/
def statementsSent : List Event → List String
  | [] => []
  | Event.dbQuery q _ :: evs => q :: statementsSent evs
  | Event.dbPrepare q _ :: evs => q :: statementsSent evs
  | _ :: evs => statementsSent evs

/-- The lines printed by `log.Println`, in order. -/
def printedLines : List Event → List String
  | [] => []
  | Event.logPrintln l :: evs => l :: printedLines evs
  | _ :: evs => printedLines evs

/-- A `db.Prepare` call. -/
def Event.isPrepare : Event → Bool
  | Event.dbPrepare _ _ => true
  | _ => false

/-- A `stmt.Exec` call. -/
def Event.isExec : Event → Bool
  | Event.stmtExec _ _ => true
  | _ => false

/-- A `db.Query` call. -/
def Event.isQuery : Event → Bool
  | Event.dbQuery _ _ => true
  | _ => false

/-- A `sql.Open` call. -/
def Event.isOpen : Event → Bool
  | Event.sqlOpen _ _ _ => true
  | _ => false

/-- A call into `database/sql`. -/
def Event.isDatabaseCall : Event → Bool
  | Event.logPrintln _ => false
  | Event.logFatal _ => false
  | _ => true

/-- One of the five checked calls, returning an error. -/
def Event.isFailure : Event → Bool
  | Event.sqlOpen _ _ (some _) => true
  | Event.dbQuery _ (some _) => true
  | Event.rowsScan (some _) => true
  | Event.dbPrepare _ (some _) => true
  | Event.stmtExec _ (some _) => true
  | _ => false

/-- The error a failed call returned. -/
def Event.error? : Event → Option String
  | Event.sqlOpen _ _ e => e
  | Event.dbQuery _ e => e
  | Event.rowsScan e => e
  | Event.dbPrepare _ e => e
  | Event.stmtExec _ e => e
  | _ => none

/-- The calls made for rows that decode: one `rows.Next` and one `rows.Scan`
per row. -/
def scanOk : List String → List Event
  | [] => []
  | _ :: names => Event.rowsNext true :: Event.rowsScan none :: scanOk names

/-- The steps `_getTables` can take. -/
def Event.isCatalogStep : Event → Bool
  | Event.dbQuery _ _ => true
  | Event.rowsNext _ => true
  | Event.rowsScan _ => true
  | Event.rowsClose => true
  | Event.logFatal _ => true
  | _ => false

/-- The head of every trace of `_getTables` in which the query succeeded, up to
the rows that decoded. -/
def queried (names : List String) : List Event :=
  Event.dbQuery query none :: scanOk names

/-- The table described by the CREATE statement of `_createTable`. -/
def postsTable : Table :=
  { name := "posts"
    columns :=
      [ { name := "id", type := "SERIAL", constraints := ["PRIMARY", "KEY"] },
        { name := "title", type := "TEXT", constraints := [] },
        { name := "url", type := "TEXT", constraints := [] },
        { name := "type", type := "TEXT", constraints := [] },
        { name := "score", type := "INT", constraints := [] },
        { name := "timestamp", type := "TIMESTAMP", constraints := [] } ] }

/-- One run of the program against `db` in which no call fails. -/
def bootstrap (db : Database) : Run :=
  main (worldOf db)

/-- The database after one such run. -/
def Database.bootstrapped (db : Database) : Database :=
  db.after (bootstrap db).trace

/-- A trace in which the first failed call, if any, is followed by exactly the
`log.Fatal` of its error. -/
def stopsAtFailure : List Event → Bool
  | [] => true
  | ev :: rest =>
      if ev.isFailure then
        match ev.error? with
        | some msg => decide (rest = [Event.logFatal msg])
        | none => false
      else stopsAtFailure rest

/-! ## Lemmas on the loops -/

theorem postsTableExists_go (tableName : String) (tables : List String) (b : Bool) :
    tables.foldl (fun found value => if value = tableName then true else found) b
      = (b || decide (tableName ∈ tables)) := by
  induction tables generalizing b with
  | nil => simp
  | cons x xs ih =>
    rw [List.foldl_cons, ih]
    by_cases hx : x = tableName
    · subst hx; simp
    · have hx2 : ¬ tableName = x := fun h => hx h.symm
      simp [hx, hx2]

theorem postsTableExists_iff (tableName : String) (tables : List String) :
    postsTableExists tableName tables = true ↔ tableName ∈ tables := by
  unfold postsTableExists
  rw [postsTableExists_go]
  simp

theorem scanLoop_decoded (names : List String) (tableName : String) (tables : List String) :
    scanLoop (names.map ScanOutcome.decoded) tableName tables
      = (scanOk names ++ [Event.rowsNext false], some (tables ++ names)) := by
  induction names generalizing tableName tables with
  | nil => simp [scanLoop, scanOk]
  | cons n ns ih => simp [scanLoop, scanOk, ih]

theorem scanLoop_failed (names : List String) (e : String) (rest : List ScanOutcome)
    (tableName : String) (tables : List String) :
    scanLoop (names.map ScanOutcome.decoded ++ ScanOutcome.failed e :: rest) tableName tables
      = (scanOk names ++ [Event.rowsNext true, Event.rowsScan (some e), Event.logFatal e], none) := by
  induction names generalizing tableName tables with
  | nil => simp [scanLoop, scanOk]
  | cons n ns ih => simp [scanLoop, scanOk, ih]

/-- Every row list is a run of decoded rows, either to the end or up to a first
row that fails to decode. -/
theorem rows_split (rows : List ScanOutcome) :
    (∃ names : List String, rows = names.map ScanOutcome.decoded) ∨
    (∃ (names : List String) (e : String) (rest : List ScanOutcome),
      rows = names.map ScanOutcome.decoded ++ ScanOutcome.failed e :: rest) := by
  induction rows with
  | nil => exact Or.inl ⟨[], rfl⟩
  | cons r rs ih =>
    cases r with
    | failed e => exact Or.inr ⟨[], e, rs, rfl⟩
    | decoded n =>
      rcases ih with ⟨names, h⟩ | ⟨names, e, rest, h⟩
      · exact Or.inl ⟨n :: names, by simp [h]⟩
      · exact Or.inr ⟨n :: names, e, rest, by simp [h]⟩

theorem getTables_queryErr (w : World) (e : String) (h : w.queryErr = some e) :
    _getTables w = ([Event.dbQuery query (some e), Event.logFatal e], none) := by
  simp [_getTables, h]

theorem getTables_decoded (w : World) (names : List String) (hq : w.queryErr = none)
    (hr : w.rows = names.map ScanOutcome.decoded) :
    _getTables w = (Event.dbQuery query none :: scanOk names
      ++ [Event.rowsNext false, Event.rowsClose], some names) := by
  simp [_getTables, hq, hr, scanLoop_decoded]

theorem getTables_failed (w : World) (names : List String) (e : String)
    (rest : List ScanOutcome) (hq : w.queryErr = none)
    (hr : w.rows = names.map ScanOutcome.decoded ++ ScanOutcome.failed e :: rest) :
    _getTables w = (Event.dbQuery query none :: scanOk names
      ++ [Event.rowsNext true, Event.rowsScan (some e), Event.logFatal e], none) := by
  simp [_getTables, hq, hr, scanLoop_failed]

/-- When `_getTables` returns, the query succeeded, every row decoded, and the
slice holds the decoded names in order. -/
theorem getTables_returns (w : World) (evs : List Event) (tables : List String)
    (h : _getTables w = (evs, some tables)) :
    w.queryErr = none ∧ w.rows = tables.map ScanOutcome.decoded ∧
      evs = Event.dbQuery query none :: scanOk tables
        ++ [Event.rowsNext false, Event.rowsClose] := by
  cases hq : w.queryErr with
  | some e => rw [getTables_queryErr w e hq] at h; simp at h
  | none =>
    rcases rows_split w.rows with ⟨names, hr⟩ | ⟨names, e, rest, hr⟩
    · rw [getTables_decoded w names hq hr] at h
      simp only [Prod.mk.injEq, Option.some.injEq] at h
      obtain ⟨h1, h2⟩ := h
      subst h2
      exact ⟨rfl, hr, h1.symm⟩
    · rw [getTables_failed w names e rest hq hr] at h; simp at h

theorem scanOk_catalogStep (names : List String) :
    ∀ ev ∈ scanOk names, ev.isCatalogStep = true := by
  induction names with
  | nil => simp [scanOk]
  | cons n ns ih =>
    intro ev hev
    simp only [scanOk, List.mem_cons] at hev
    rcases hev with h | h | h
    · subst h; rfl
    · subst h; rfl
    · exact ih ev h

theorem statementsSent_append (xs ys : List Event) :
    statementsSent (xs ++ ys) = statementsSent xs ++ statementsSent ys := by
  induction xs with
  | nil => rfl
  | cons x xs ih => cases x <;> simp [statementsSent, ih]

theorem printedLines_append (xs ys : List Event) :
    printedLines (xs ++ ys) = printedLines xs ++ printedLines ys := by
  induction xs with
  | nil => rfl
  | cons x xs ih => cases x <;> simp [printedLines, ih]

theorem statementsSent_scanOk (names : List String) : statementsSent (scanOk names) = [] := by
  induction names with
  | nil => rfl
  | cons n ns ih => simp [scanOk, statementsSent, ih]

theorem printedLines_scanOk (names : List String) : printedLines (scanOk names) = [] := by
  induction names with
  | nil => rfl
  | cons n ns ih => simp [scanOk, printedLines, ih]

theorem filter_scanOk (p : Event → Bool) (h1 : p (Event.rowsNext true) = false)
    (h2 : p (Event.rowsScan none) = false) (names : List String) :
    (scanOk names).filter p = [] := by
  induction names with
  | nil => rfl
  | cons n ns ih => simp [scanOk, List.filter_cons, h1, h2, ih]

theorem after_append (db : Database) (xs ys : List Event) :
    db.after (xs ++ ys) = (db.after xs).after ys := by
  induction xs generalizing db with
  | nil => rfl
  | cons x xs ih =>
    cases x with
    | stmtExec q e => cases e <;> simp [Database.after, ih]
    | _ => simp [Database.after, ih]

theorem after_scanOk (db : Database) (names : List String) : db.after (scanOk names) = db := by
  induction names with
  | nil => rfl
  | cons n ns ih => simp [scanOk, Database.after, ih]

/-! ## The paths through `_createTable` and `main` -/

theorem createTable_exit (w : World) (evs : List Event) (h : _getTables w = (evs, none)) :
    _createTable w = (evs, none) := by
  simp [_createTable, h]

theorem createTable_present (w : World) (evs : List Event) (tables : List String)
    (h : _getTables w = (evs, some tables)) (hm : "posts" ∈ tables) :
    _createTable w = (evs ++ [Event.logPrintln "Table posts already created"], some ()) := by
  have hp : postsTableExists "posts" tables = true := (postsTableExists_iff _ _).2 hm
  simp only [_createTable, h, hp, if_true]
  rfl

theorem createTable_prepareErr (w : World) (evs : List Event) (tables : List String)
    (h : _getTables w = (evs, some tables)) (hm : "posts" ∉ tables) (e : String)
    (hp : w.prepareErr = some e) :
    _createTable w
      = (evs ++ [Event.dbPrepare (createStatement "posts") (some e), Event.logFatal e], none) := by
  have hx : postsTableExists "posts" tables = false := by
    rw [Bool.eq_false_iff]; exact fun hc => hm ((postsTableExists_iff _ _).1 hc)
  simp [_createTable, h, hx, hp]

theorem createTable_execErr (w : World) (evs : List Event) (tables : List String)
    (h : _getTables w = (evs, some tables)) (hm : "posts" ∉ tables)
    (hp : w.prepareErr = none) (e : String) (he : w.execErr = some e) :
    _createTable w
      = (evs ++ [Event.dbPrepare (createStatement "posts") none,
                 Event.stmtExec (createStatement "posts") (some e), Event.logFatal e], none) := by
  have hx : postsTableExists "posts" tables = false := by
    rw [Bool.eq_false_iff]; exact fun hc => hm ((postsTableExists_iff _ _).1 hc)
  simp [_createTable, h, hx, hp, he]

theorem createTable_created (w : World) (evs : List Event) (tables : List String)
    (h : _getTables w = (evs, some tables)) (hm : "posts" ∉ tables)
    (hp : w.prepareErr = none) (he : w.execErr = none) :
    _createTable w
      = (evs ++ [Event.dbPrepare (createStatement "posts") none,
                 Event.stmtExec (createStatement "posts") none,
                 Event.logPrintln "Table posts succesfully created",
                 Event.stmtClose], some ()) := by
  have hx : postsTableExists "posts" tables = false := by
    rw [Bool.eq_false_iff]; exact fun hc => hm ((postsTableExists_iff _ _).1 hc)
  simp only [_createTable, h, hx, hp, he]
  rfl

/-- The six paths through `_createTable`. -/
theorem createTable_paths (w : World) :
    (∃ e, w.queryErr = some e ∧
      _createTable w = ([Event.dbQuery query (some e), Event.logFatal e], none)) ∨
    (∃ (names : List String) (e : String) (rest : List ScanOutcome),
      w.queryErr = none ∧
      w.rows = names.map ScanOutcome.decoded ++ ScanOutcome.failed e :: rest ∧
      _createTable w = (queried names ++ [Event.rowsNext true, Event.rowsScan (some e),
                 Event.logFatal e], none)) ∨
    (∃ names : List String, w.queryErr = none ∧
      w.rows = names.map ScanOutcome.decoded ∧ "posts" ∈ names ∧
      _createTable w = (queried names ++ [Event.rowsNext false, Event.rowsClose,
                 Event.logPrintln "Table posts already created"], some ())) ∨
    (∃ (names : List String) (e : String), w.queryErr = none ∧
      w.rows = names.map ScanOutcome.decoded ∧ "posts" ∉ names ∧ w.prepareErr = some e ∧
      _createTable w = (queried names ++ [Event.rowsNext false, Event.rowsClose,
                 Event.dbPrepare (createStatement "posts") (some e), Event.logFatal e], none)) ∨
    (∃ (names : List String) (e : String), w.queryErr = none ∧
      w.rows = names.map ScanOutcome.decoded ∧ "posts" ∉ names ∧ w.prepareErr = none ∧
      w.execErr = some e ∧
      _createTable w = (queried names ++ [Event.rowsNext false, Event.rowsClose,
                 Event.dbPrepare (createStatement "posts") none,
                 Event.stmtExec (createStatement "posts") (some e), Event.logFatal e], none)) ∨
    (∃ names : List String, w.queryErr = none ∧
      w.rows = names.map ScanOutcome.decoded ∧ "posts" ∉ names ∧ w.prepareErr = none ∧
      w.execErr = none ∧
      _createTable w = (queried names ++ [Event.rowsNext false, Event.rowsClose,
                 Event.dbPrepare (createStatement "posts") none,
                 Event.stmtExec (createStatement "posts") none,
                 Event.logPrintln "Table posts succesfully created",
                 Event.stmtClose], some ())) := by
  cases hq : w.queryErr with
  | some e =>
    exact Or.inl ⟨e, rfl, createTable_exit w _ (getTables_queryErr w e hq)⟩
  | none =>
    right
    rcases rows_split w.rows with ⟨names, hr⟩ | ⟨names, e, rest, hr⟩
    · right
      have hg := getTables_decoded w names hq hr
      by_cases hm : "posts" ∈ names
      · refine Or.inl ⟨names, rfl, hr, hm, ?_⟩
        simp [createTable_present w _ names hg hm, queried]
      · right
        cases hp : w.prepareErr with
        | some e =>
          refine Or.inl ⟨names, e, rfl, hr, hm, rfl, ?_⟩
          simp [createTable_prepareErr w _ names hg hm e hp, queried]
        | none =>
          right
          cases he : w.execErr with
          | some e =>
            refine Or.inl ⟨names, e, rfl, hr, hm, rfl, rfl, ?_⟩
            simp [createTable_execErr w _ names hg hm hp e he, queried]
          | none =>
            refine Or.inr ⟨names, rfl, hr, hm, rfl, rfl, ?_⟩
            simp [createTable_created w _ names hg hm hp he, queried]
    · refine Or.inl ⟨names, e, rest, rfl, hr, ?_⟩
      simp [createTable_exit w _ (getTables_failed w names e rest hq hr), queried]

theorem main_openErr (w : World) (e : String) (h : w.openErr = some e) :
    main w = ⟨[Event.sqlOpen "postgres" psqlInfo (some e), Event.logFatal e], 1⟩ := by
  simp [main, _connect, h]

theorem main_exit (w : World) (evs : List Event) (ho : w.openErr = none)
    (h : _createTable w = (evs, none)) :
    main w = ⟨Event.sqlOpen "postgres" psqlInfo none :: evs, 1⟩ := by
  simp [main, _connect, ho, h]

theorem main_return (w : World) (evs : List Event) (ho : w.openErr = none)
    (h : _createTable w = (evs, some ())) :
    main w = ⟨Event.sqlOpen "postgres" psqlInfo none :: evs ++ [Event.dbClose], 0⟩ := by
  simp [main, _connect, ho, h]

/-- The seven paths through the program. -/
theorem main_paths (w : World) :
    (∃ e, w.openErr = some e ∧
      main w = ⟨[Event.sqlOpen "postgres" psqlInfo (some e), Event.logFatal e], 1⟩) ∨
    (∃ e, w.openErr = none ∧ w.queryErr = some e ∧
      main w = ⟨[Event.sqlOpen "postgres" psqlInfo none,
                 Event.dbQuery query (some e), Event.logFatal e], 1⟩) ∨
    (∃ (names : List String) (e : String) (rest : List ScanOutcome),
      w.openErr = none ∧ w.queryErr = none ∧
      w.rows = names.map ScanOutcome.decoded ++ ScanOutcome.failed e :: rest ∧
      main w = ⟨Event.sqlOpen "postgres" psqlInfo none :: queried names
                 ++ [Event.rowsNext true, Event.rowsScan (some e), Event.logFatal e], 1⟩) ∨
    (∃ names : List String, w.openErr = none ∧ w.queryErr = none ∧
      w.rows = names.map ScanOutcome.decoded ∧ "posts" ∈ names ∧
      main w = ⟨Event.sqlOpen "postgres" psqlInfo none :: queried names
                 ++ [Event.rowsNext false, Event.rowsClose,
                 Event.logPrintln "Table posts already created", Event.dbClose], 0⟩) ∨
    (∃ (names : List String) (e : String), w.openErr = none ∧ w.queryErr = none ∧
      w.rows = names.map ScanOutcome.decoded ∧ "posts" ∉ names ∧ w.prepareErr = some e ∧
      main w = ⟨Event.sqlOpen "postgres" psqlInfo none :: queried names
                 ++ [Event.rowsNext false, Event.rowsClose,
                 Event.dbPrepare (createStatement "posts") (some e), Event.logFatal e], 1⟩) ∨
    (∃ (names : List String) (e : String), w.openErr = none ∧ w.queryErr = none ∧
      w.rows = names.map ScanOutcome.decoded ∧ "posts" ∉ names ∧ w.prepareErr = none ∧
      w.execErr = some e ∧
      main w = ⟨Event.sqlOpen "postgres" psqlInfo none :: queried names
                 ++ [Event.rowsNext false, Event.rowsClose,
                 Event.dbPrepare (createStatement "posts") none,
                 Event.stmtExec (createStatement "posts") (some e), Event.logFatal e], 1⟩) ∨
    (∃ names : List String, w.openErr = none ∧ w.queryErr = none ∧
      w.rows = names.map ScanOutcome.decoded ∧ "posts" ∉ names ∧ w.prepareErr = none ∧
      w.execErr = none ∧
      main w = ⟨Event.sqlOpen "postgres" psqlInfo none :: queried names
                 ++ [Event.rowsNext false, Event.rowsClose,
                 Event.dbPrepare (createStatement "posts") none,
                 Event.stmtExec (createStatement "posts") none,
                 Event.logPrintln "Table posts succesfully created",
                 Event.stmtClose, Event.dbClose], 0⟩) := by
  cases ho : w.openErr with
  | some e => exact Or.inl ⟨e, rfl, main_openErr w e ho⟩
  | none =>
    right
    rcases createTable_paths w with ⟨e, hq, h⟩ | ⟨names, e, rest, hq, hr, h⟩ |
      ⟨names, hq, hr, hm, h⟩ | ⟨names, e, hq, hr, hm, hp, h⟩ |
      ⟨names, e, hq, hr, hm, hp, he, h⟩ | ⟨names, hq, hr, hm, hp, he, h⟩
    · exact Or.inl ⟨e, rfl, hq, main_exit w _ ho h⟩
    · exact Or.inr (Or.inl ⟨names, e, rest, rfl, hq, hr, by simp [main_exit w _ ho h]⟩)
    · exact Or.inr (Or.inr (Or.inl ⟨names, rfl, hq, hr, hm, by simp [main_return w _ ho h]⟩))
    · exact Or.inr (Or.inr (Or.inr (Or.inl
        ⟨names, e, rfl, hq, hr, hm, hp, by simp [main_exit w _ ho h]⟩)))
    · exact Or.inr (Or.inr (Or.inr (Or.inr (Or.inl
        ⟨names, e, rfl, hq, hr, hm, hp, he, by simp [main_exit w _ ho h]⟩))))
    · exact Or.inr (Or.inr (Or.inr (Or.inr (Or.inr
        ⟨names, rfl, hq, hr, hm, hp, he, by simp [main_return w _ ho h]⟩))))

/-! ## Views of the quiet part of a trace -/

theorem filter_queried (p : Event → Bool) (h0 : p (Event.dbQuery query none) = false)
    (h1 : p (Event.rowsNext true) = false) (h2 : p (Event.rowsScan none) = false)
    (names : List String) : (queried names).filter p = [] := by
  simp [queried, List.filter_cons, h0, filter_scanOk p h1 h2]

theorem printedLines_queried (names : List String) : printedLines (queried names) = [] := by
  simp [queried, printedLines, printedLines_scanOk]

theorem statementsSent_queried (names : List String) :
    statementsSent (queried names) = [query] := by
  simp [queried, statementsSent, statementsSent_scanOk]

theorem after_queried (db : Database) (names : List String) :
    db.after (queried names) = db := by
  simp [queried, Database.after, after_scanOk]

/-! ## The database and the shape of a run -/

theorem parse_createStatement : parseCreateTable (createStatement "posts") = some postsTable := by
  decide

theorem mem_catalog (db : Database) (n : String) : n ∈ db.catalog ↔ n ∈ db.names :=
  (List.perm_insertionSort _ _).mem_iff

theorem exec_create_present (db : Database) (h : "posts" ∈ db.names) :
    db.exec (createStatement "posts") = db := by
  have h2 : postsTable.name ∈ db.tables.map Table.name := h
  simp only [Database.exec, parse_createStatement, h2, dite_true]

theorem exec_create_absent (db : Database) (h : "posts" ∉ db.names) :
    (db.exec (createStatement "posts")).tables = db.tables ++ [postsTable] := by
  have h2 : ¬ postsTable.name ∈ db.tables.map Table.name := h
  simp only [Database.exec, parse_createStatement, h2, dite_false]

theorem posts_mem_exec_create (db : Database) :
    "posts" ∈ (db.exec (createStatement "posts")).names := by
  by_cases h : "posts" ∈ db.names
  · rw [exec_create_present db h]; exact h
  · simp [Database.names, exec_create_absent db h, postsTable]

theorem getTables_worldOf (db : Database) :
    _getTables (worldOf db)
      = (queried db.catalog ++ [Event.rowsNext false, Event.rowsClose], some db.catalog) := by
  rw [getTables_decoded (worldOf db) db.catalog rfl rfl]
  simp [queried]

theorem bootstrap_present (db : Database) (h : "posts" ∈ db.names) :
    bootstrap db = ⟨Event.sqlOpen "postgres" psqlInfo none :: queried db.catalog
      ++ [Event.rowsNext false, Event.rowsClose,
          Event.logPrintln "Table posts already created", Event.dbClose], 0⟩ := by
  have hc := createTable_present (worldOf db) _ db.catalog (getTables_worldOf db)
    ((mem_catalog db "posts").2 h)
  unfold bootstrap
  rw [main_return (worldOf db) _ rfl hc]
  simp

theorem bootstrap_absent (db : Database) (h : "posts" ∉ db.names) :
    bootstrap db = ⟨Event.sqlOpen "postgres" psqlInfo none :: queried db.catalog
      ++ [Event.rowsNext false, Event.rowsClose,
          Event.dbPrepare (createStatement "posts") none,
          Event.stmtExec (createStatement "posts") none,
          Event.logPrintln "Table posts succesfully created",
          Event.stmtClose, Event.dbClose], 0⟩ := by
  have hc := createTable_created (worldOf db) _ db.catalog (getTables_worldOf db)
    (fun hm => h ((mem_catalog db "posts").1 hm)) rfl rfl
  unfold bootstrap
  rw [main_return (worldOf db) _ rfl hc]
  simp

theorem bootstrapped_present (db : Database) (h : "posts" ∈ db.names) :
    db.bootstrapped = db := by
  unfold Database.bootstrapped
  rw [bootstrap_present db h]
  simp [Database.after, after_append, after_queried, after_scanOk]

theorem bootstrapped_absent (db : Database) (h : "posts" ∉ db.names) :
    db.bootstrapped = db.exec (createStatement "posts") := by
  unfold Database.bootstrapped
  rw [bootstrap_absent db h]
  simp [Database.after, after_append, after_queried, after_scanOk]

theorem posts_mem_bootstrapped (db : Database) : "posts" ∈ db.bootstrapped.names := by
  by_cases h : "posts" ∈ db.names
  · rw [bootstrapped_present db h]; exact h
  · rw [bootstrapped_absent db h]; exact posts_mem_exec_create db

theorem stopsAtFailure_split (pre : List Event) :
    ∀ (tr : List Event) (ev : Event) (post : List Event), stopsAtFailure tr = true →
      tr = pre ++ ev :: post → ev.isFailure = true →
      ∃ msg, ev.error? = some msg ∧ post = [Event.logFatal msg] := by
  induction pre with
  | nil =>
    intro tr ev post hs htr hf
    subst htr
    simp only [List.nil_append, stopsAtFailure, hf, if_true] at hs
    cases he : ev.error? with
    | none => rw [he] at hs; simp at hs
    | some msg => rw [he] at hs; exact ⟨msg, rfl, by simpa using hs⟩
  | cons p pre ih =>
    intro tr ev post hs htr hf
    subst htr
    by_cases hp : p.isFailure = true
    · simp only [List.cons_append, stopsAtFailure, hp, if_true] at hs
      cases he : p.error? with
      | none => rw [he] at hs; simp at hs
      | some msg =>
        rw [he] at hs
        have h1 : pre ++ ev :: post = [Event.logFatal msg] := by simpa using hs
        cases pre with
        | nil =>
          simp only [List.nil_append, List.cons.injEq] at h1
          rw [h1.1] at hf
          simp [Event.isFailure] at hf
        | cons a as =>
          simp at h1
    · have hp2 : p.isFailure = false := by simpa using hp
      simp only [List.cons_append, stopsAtFailure, hp2] at hs
      exact ih _ ev post (by simpa using hs) rfl hf

theorem stopsAtFailure_append (xs ys : List Event) (h : xs.filter Event.isFailure = []) :
    stopsAtFailure (xs ++ ys) = stopsAtFailure ys := by
  induction xs with
  | nil => rfl
  | cons x xs ih =>
    by_cases hx : x.isFailure = true
    · simp [List.filter_cons, hx] at h
    · have hx2 : x.isFailure = false := by simpa using hx
      simp only [List.filter_cons, hx2] at h
      simp only [List.cons_append, stopsAtFailure, hx2]
      exact ih (by simpa using h)

theorem mem_queried (names : List String) (ev : Event) (h : ev ∈ queried names) :
    ev.isCatalogStep = true := by
  simp only [queried, List.mem_cons] at h
  rcases h with h | h
  · subst h; rfl
  · exact scanOk_catalogStep names ev h

/-- What every run satisfies: it stops at the first failed call, and either it
ends with status 1, prints no line and contains a failed call, or it ends
with status 0 and contains none. -/
theorem main_summary (w : World) :
    stopsAtFailure (main w).trace = true ∧
    (((main w).exitStatus = 1 ∧ printedLines (main w).trace = [] ∧
        ∃ ev ∈ (main w).trace, ev.isFailure = true) ∨
     ((main w).exitStatus = 0 ∧ (main w).trace.filter Event.isFailure = [])) := by
  have fq : ∀ names : List String, (queried names).filter Event.isFailure = [] :=
    fun names => filter_queried Event.isFailure rfl rfl rfl names
  have fo : ∀ names : List String,
      (Event.sqlOpen "postgres" psqlInfo none :: queried names).filter Event.isFailure = [] := by
    intro names
    simp [List.filter_cons, Event.isFailure, fq]
  rcases main_paths w with ⟨e, ho, h⟩ | ⟨e, ho, hq, h⟩ | ⟨names, e, rest, ho, hq, hr, h⟩ |
    ⟨names, ho, hq, hr, hm, h⟩ | ⟨names, e, ho, hq, hr, hm, hp, h⟩ |
    ⟨names, e, ho, hq, hr, hm, hp, he, h⟩ | ⟨names, ho, hq, hr, hm, hp, he, h⟩
  · rw [h]
    exact ⟨by simp [stopsAtFailure, Event.isFailure, Event.error?],
      Or.inl ⟨rfl, by simp [printedLines], _, List.mem_cons_self _ _, rfl⟩⟩
  · rw [h]
    exact ⟨by simp [stopsAtFailure, Event.isFailure, Event.error?],
      Or.inl ⟨rfl, by simp [printedLines], Event.dbQuery query (some e), by simp, rfl⟩⟩
  · rw [h]
    refine ⟨?_, Or.inl ⟨rfl, ?_, Event.rowsScan (some e), by simp, rfl⟩⟩
    · dsimp only
      rw [stopsAtFailure_append _ _ (fo names)]
      simp [stopsAtFailure, Event.isFailure, Event.error?]
    · simp [printedLines_append, printedLines_queried, printedLines_scanOk, printedLines]
  · rw [h]
    refine ⟨?_, Or.inr ⟨rfl, ?_⟩⟩
    · dsimp only
      rw [stopsAtFailure_append _ _ (fo names)]
      simp [stopsAtFailure, Event.isFailure]
    · dsimp only
      rw [List.filter_append, fo names]
      simp [List.filter_cons, Event.isFailure]
  · rw [h]
    refine ⟨?_, Or.inl ⟨rfl, ?_,
      Event.dbPrepare (createStatement "posts") (some e), by simp, rfl⟩⟩
    · dsimp only
      rw [stopsAtFailure_append _ _ (fo names)]
      simp [stopsAtFailure, Event.isFailure, Event.error?]
    · simp [printedLines_append, printedLines_queried, printedLines_scanOk, printedLines]
  · rw [h]
    refine ⟨?_, Or.inl ⟨rfl, ?_,
      Event.stmtExec (createStatement "posts") (some e), by simp, rfl⟩⟩
    · dsimp only
      rw [stopsAtFailure_append _ _ (fo names)]
      simp [stopsAtFailure, Event.isFailure, Event.error?]
    · simp [printedLines_append, printedLines_queried, printedLines_scanOk, printedLines]
  · rw [h]
    refine ⟨?_, Or.inr ⟨rfl, ?_⟩⟩
    · dsimp only
      rw [stopsAtFailure_append _ _ (fo names)]
      simp [stopsAtFailure, Event.isFailure]
    · dsimp only
      rw [List.filter_append, fo names]
      simp [List.filter_cons, Event.isFailure]

/-- In every run, `db.Close` is called exactly when the run ends with status
0: no run that ends through `log.Fatal` calls it. -/
theorem dbClose_iff_exit_zero (w : World) :
    Event.dbClose ∈ (main w).trace ↔ (main w).exitStatus = 0 := by
  have hmq : ∀ names : List String, Event.dbClose ∉ queried names :=
    fun names hmem => by simpa [Event.isCatalogStep] using mem_queried names _ hmem
  rcases main_paths w with ⟨e, ho, h⟩ | ⟨e, ho, hq, h⟩ | ⟨names, e, rest, ho, hq, hr, h⟩ |
    ⟨names, ho, hq, hr, hm, h⟩ | ⟨names, e, ho, hq, hr, hm, hp, h⟩ |
    ⟨names, e, ho, hq, hr, hm, hp, he, h⟩ | ⟨names, ho, hq, hr, hm, hp, he, h⟩ <;>
  · rw [h]
    simp [hmq]

/-! ## The claims -/

/-- C1: whenever the slice returned by `_getTables` contains "posts",
`_createTable` returns after adding one step to those of `_getTables`, the log
line "Table posts already created"; its trace holds no `db.Prepare` and no
`stmt.Exec` call, and that line is the only one it prints. -/
theorem createTable_noop_when_posts_listed (w : World) (evs : List Event)
    (tables : List String) (hget : _getTables w = (evs, some tables))
    (hmem : "posts" ∈ tables) :
    _createTable w = (evs ++ [Event.logPrintln "Table posts already created"], some ()) ∧
    (_createTable w).1.filter Event.isPrepare = [] ∧
    (_createTable w).1.filter Event.isExec = [] ∧
    printedLines (_createTable w).1 = ["Table posts already created"] := by
  have hc := createTable_present w evs tables hget hmem
  obtain ⟨_, _, hevs⟩ := getTables_returns w evs tables hget
  have hq : evs = queried tables ++ [Event.rowsNext false, Event.rowsClose] := by
    rw [hevs]; simp [queried]
  refine ⟨hc, ?_, ?_, ?_⟩
  · rw [hc, hq]
    simp [List.filter_append, filter_queried Event.isPrepare rfl rfl rfl, List.filter_cons,
      Event.isPrepare]
  · rw [hc, hq]
    simp [List.filter_append, filter_queried Event.isExec rfl rfl rfl, List.filter_cons,
      Event.isExec]
  · rw [hc, hq]
    simp [printedLines_append, printedLines_queried, printedLines_scanOk, printedLines]

/-- Witness for C1: the catalog lists `comments` and `posts`. -/
theorem createTable_noop_when_posts_listed_witness :
    _createTable ⟨none, none, [ScanOutcome.decoded "comments", ScanOutcome.decoded "posts"],
        none, none⟩
      = ([Event.dbQuery query none, Event.rowsNext true, Event.rowsScan none,
          Event.rowsNext true, Event.rowsScan none, Event.rowsNext false, Event.rowsClose]
          ++ [Event.logPrintln "Table posts already created"], some ()) :=
  (createTable_noop_when_posts_listed
    ⟨none, none, [ScanOutcome.decoded "comments", ScanOutcome.decoded "posts"], none, none⟩
    [Event.dbQuery query none, Event.rowsNext true, Event.rowsScan none,
      Event.rowsNext true, Event.rowsScan none, Event.rowsNext false, Event.rowsClose]
    ["comments", "posts"] rfl (by decide)).1

/-- C2, the claim as stated fails: the catalog lists no table, `db.Prepare`
returns an error, and no `stmt.Exec` call follows the one `db.Prepare` call. -/
theorem createTable_prepare_error_no_exec :
    (_getTables ⟨none, none, [], some "pq: permission denied for schema public", none⟩).2
      = some [] ∧
    "posts" ∉ ([] : List String) ∧
    (_createTable ⟨none, none, [], some "pq: permission denied for schema public",
        none⟩).1.filter Event.isPrepare
      = [Event.dbPrepare (createStatement "posts")
          (some "pq: permission denied for schema public")] ∧
    (_createTable ⟨none, none, [], some "pq: permission denied for schema public",
        none⟩).1.filter Event.isExec = [] := by
  decide

/-- C2, amended: whenever the slice returned by `_getTables` does not contain
"posts", `_createTable` calls `db.Prepare` exactly once, with the CREATE TABLE
statement for `posts`; when that call returns no error it is followed at once
by the only `stmt.Exec` call, and when it returns an error there is no
`stmt.Exec` call; when both calls succeed, the catalog of every database after
the run lists "posts". -/
theorem createTable_creates_when_posts_missing (w : World) (evs : List Event)
    (tables : List String) (hget : _getTables w = (evs, some tables))
    (hmiss : "posts" ∉ tables) :
    (_createTable w).1.filter Event.isPrepare
      = [Event.dbPrepare (createStatement "posts") w.prepareErr] ∧
    parseCreateTable (createStatement "posts") = some postsTable ∧
    (w.prepareErr = none →
      (_createTable w).1.filter Event.isExec
        = [Event.stmtExec (createStatement "posts") w.execErr] ∧
      ∃ rest, (_createTable w).1
        = evs ++ Event.dbPrepare (createStatement "posts") none
            :: Event.stmtExec (createStatement "posts") w.execErr :: rest) ∧
    (w.prepareErr ≠ none → (_createTable w).1.filter Event.isExec = []) ∧
    (w.prepareErr = none → w.execErr = none →
      ∀ db : Database, "posts" ∈ (db.after (_createTable w).1).catalog) := by
  obtain ⟨_, _, hevs⟩ := getTables_returns w evs tables hget
  have hq : evs = queried tables ++ [Event.rowsNext false, Event.rowsClose] := by
    rw [hevs]; simp [queried]
  have fP : evs.filter Event.isPrepare = [] := by
    rw [hq]
    simp [List.filter_append, filter_queried Event.isPrepare rfl rfl rfl, List.filter_cons,
      Event.isPrepare]
  have fE : evs.filter Event.isExec = [] := by
    rw [hq]
    simp [List.filter_append, filter_queried Event.isExec rfl rfl rfl, List.filter_cons,
      Event.isExec]
  have hafter : ∀ db : Database, db.after evs = db := by
    intro db
    rw [hq]
    simp [after_append, after_queried, after_scanOk, Database.after]
  refine ⟨?_, parse_createStatement, ?_, ?_, ?_⟩
  · cases hp : w.prepareErr with
    | some e =>
      rw [createTable_prepareErr w evs tables hget hmiss e hp]
      simp [List.filter_append, fP, List.filter_cons, Event.isPrepare]
    | none =>
      cases he : w.execErr with
      | some e =>
        rw [createTable_execErr w evs tables hget hmiss hp e he]
        simp [List.filter_append, fP, List.filter_cons, Event.isPrepare]
      | none =>
        rw [createTable_created w evs tables hget hmiss hp he]
        simp [List.filter_append, fP, List.filter_cons, Event.isPrepare]
  · intro hp
    cases he : w.execErr with
    | some e =>
      rw [createTable_execErr w evs tables hget hmiss hp e he]
      exact ⟨by simp [List.filter_append, fE, List.filter_cons, Event.isExec], _, rfl⟩
    | none =>
      rw [createTable_created w evs tables hget hmiss hp he]
      exact ⟨by simp [List.filter_append, fE, List.filter_cons, Event.isExec], _, rfl⟩
  · intro hp
    cases hp2 : w.prepareErr with
    | none => exact absurd hp2 hp
    | some e =>
      rw [createTable_prepareErr w evs tables hget hmiss e hp2]
      simp [List.filter_append, fE, List.filter_cons, Event.isExec]
  · intro hp he db
    rw [createTable_created w evs tables hget hmiss hp he, mem_catalog, after_append, hafter]
    simp only [Database.after]
    exact posts_mem_exec_create db

/-- Witness for C2: an empty catalog and an empty database, no call failing. -/
theorem createTable_creates_when_posts_missing_witness :
    (_createTable ⟨none, none, [], none, none⟩).1.filter Event.isPrepare
      = [Event.dbPrepare (createStatement "posts") none] ∧
    (_createTable ⟨none, none, [], none, none⟩).1.filter Event.isExec
      = [Event.stmtExec (createStatement "posts") none] ∧
    "posts" ∈ (Database.empty.after (_createTable ⟨none, none, [], none, none⟩).1).catalog :=
  have h := createTable_creates_when_posts_missing ⟨none, none, [], none, none⟩
    [Event.dbQuery query none, Event.rowsNext false, Event.rowsClose] [] rfl (by decide)
  ⟨h.1, (h.2.2.1 rfl).1, h.2.2.2.2 rfl rfl Database.empty⟩

/-- C3: for every database, a run in which no call fails ends with status 0;
a second such run leaves the database as the first left it, with exactly one
table named `posts`; the second run calls neither `db.Prepare` nor
`stmt.Exec`, and the one line it prints is "Table posts already created",
which contains "already created". -/
theorem bootstrap_idempotent (db : Database) :
    (bootstrap db).exitStatus = 0 ∧
    (bootstrap db.bootstrapped).exitStatus = 0 ∧
    db.bootstrapped.bootstrapped = db.bootstrapped ∧
    db.bootstrapped.names.count "posts" = 1 ∧
    (bootstrap db.bootstrapped).trace.filter Event.isPrepare = [] ∧
    (bootstrap db.bootstrapped).trace.filter Event.isExec = [] ∧
    printedLines (bootstrap db.bootstrapped).trace = ["Table posts already created"] ∧
    "already created".data <:+: "Table posts already created".data := by
  have hm := posts_mem_bootstrapped db
  have h2 := bootstrap_present db.bootstrapped hm
  refine ⟨?_, ?_, bootstrapped_present _ hm, ?_, ?_, ?_, ?_, ?_⟩
  · by_cases h : "posts" ∈ db.names
    · rw [bootstrap_present db h]
    · rw [bootstrap_absent db h]
  · rw [h2]
  · exact List.count_eq_one_of_mem db.bootstrapped.uniqueNames hm
  · rw [h2]
    simp [List.filter_append, filter_queried Event.isPrepare rfl rfl rfl, List.filter_cons,
      Event.isPrepare]
  · rw [h2]
    simp [List.filter_append, filter_queried Event.isExec rfl rfl rfl, List.filter_cons,
      Event.isExec]
  · rw [h2]
    simp [printedLines_append, printedLines_queried, printedLines_scanOk, printedLines]
  · exact ⟨"Table posts ".data, [], rfl⟩

/-- C4, the claim as stated fails: the host cannot be reached, `sql.Open`
returns no error because it does not dial, and the failure is returned by
`db.Query`; the process ends with status 1, but `db.Query` has been called. -/
theorem query_called_when_host_unreachable :
    World.canOccur ⟨none, some "dial tcp 127.0.0.1:54320: connect: connection refused", [],
      none, none⟩ ∧
    (main ⟨none, some "dial tcp 127.0.0.1:54320: connect: connection refused", [],
      none, none⟩).exitStatus = 1 ∧
    (main ⟨none, some "dial tcp 127.0.0.1:54320: connect: connection refused", [],
      none, none⟩).trace.filter Event.isQuery
      = [Event.dbQuery query (some "dial tcp 127.0.0.1:54320: connect: connection refused")] := by
  decide

/-- C4, amended: a connection failure ends the process with status 1 at the
call that reports it.  Reported by `db.Query`, after a `sql.Open` without
error, the run is `sql.Open`, the one `db.Query` call and `log.Fatal` of the
error: no row is read and no statement is prepared or executed.  Reported by
`sql.Open`, the run is that call and `log.Fatal` of the error, and `db.Query`
is never called. -/
theorem connection_failure_is_fatal (w : World) (e : String) :
    (w.openErr = none → w.queryErr = some e →
      (main w).trace = [Event.sqlOpen "postgres" psqlInfo none,
        Event.dbQuery query (some e), Event.logFatal e] ∧
      (main w).exitStatus = 1 ∧
      (main w).trace.filter Event.isQuery = [Event.dbQuery query (some e)]) ∧
    (w.openErr = some e →
      (main w).trace = [Event.sqlOpen "postgres" psqlInfo (some e), Event.logFatal e] ∧
      (main w).exitStatus = 1 ∧
      (main w).trace.filter Event.isQuery = []) := by
  constructor
  · intro ho hq
    rw [main_exit w _ ho (createTable_exit w _ (getTables_queryErr w e hq))]
    simp [List.filter_cons, Event.isQuery]
  · intro ho
    rw [main_openErr w e ho]
    simp [List.filter_cons, Event.isQuery]

/-- Witness for C4: the host refuses the connection when `db.Query` dials. -/
theorem connection_failure_is_fatal_witness :
    (main ⟨none, some "dial tcp 127.0.0.1:54320: connect: connection refused", [],
      none, none⟩).trace
      = [Event.sqlOpen "postgres" psqlInfo none,
         Event.dbQuery query (some "dial tcp 127.0.0.1:54320: connect: connection refused"),
         Event.logFatal "dial tcp 127.0.0.1:54320: connect: connection refused"] :=
  ((connection_failure_is_fatal
    ⟨none, some "dial tcp 127.0.0.1:54320: connect: connection refused", [], none, none⟩
    "dial tcp 127.0.0.1:54320: connect: connection refused").1 rfl rfl).1

/-- C5: in the run where `sql.Open` succeeds and the catalog query fails, the
process ends through `log.Fatal` with status 1 and `db.Close` is not among the
calls made. -/
theorem close_skipped_when_query_fails :
    main ⟨none, some "connection refused", [], none, none⟩
      = ⟨[Event.sqlOpen "postgres" psqlInfo none,
          Event.dbQuery query (some "connection refused"),
          Event.logFatal "connection refused"], 1⟩ ∧
    Event.dbClose ∉ (main ⟨none, some "connection refused", [], none, none⟩).trace := by
  decide

/-- C6: in every run, a call among `sql.Open`, `db.Query`, `rows.Scan`,
`db.Prepare` and `stmt.Exec` that returns an error is followed by exactly one
more step, `log.Fatal` of that error: no database call comes after it, the
exit status is 1 and no `log.Println` line is printed in the run; a run in
which none of these calls returns an error ends with status 0. -/
theorem failure_is_fatal_and_immediate (w : World) :
    (∀ (pre : List Event) (ev : Event) (post : List Event),
      (main w).trace = pre ++ ev :: post → ev.isFailure = true →
        (∃ msg, ev.error? = some msg ∧ post = [Event.logFatal msg]) ∧
        post.filter Event.isDatabaseCall = [] ∧
        (main w).exitStatus = 1 ∧
        printedLines (main w).trace = []) ∧
    ((main w).trace.filter Event.isFailure = [] → (main w).exitStatus = 0) := by
  obtain ⟨hs, hcases⟩ := main_summary w
  constructor
  · intro pre ev post htr hf
    obtain ⟨msg, hmsg, hpost⟩ := stopsAtFailure_split pre _ ev post hs htr hf
    have hdb : post.filter Event.isDatabaseCall = [] := by
      rw [hpost]; simp [List.filter_cons, Event.isDatabaseCall]
    rcases hcases with ⟨h1, h2, _⟩ | ⟨_, h2⟩
    · exact ⟨⟨msg, hmsg, hpost⟩, hdb, h1, h2⟩
    · have hmem : ev ∈ (main w).trace.filter Event.isFailure := by
        rw [List.mem_filter, htr]
        exact ⟨by simp, hf⟩
      rw [h2] at hmem
      simp at hmem
  · intro hnone
    rcases hcases with ⟨_, _, ev, hev, hf⟩ | ⟨h1, _⟩
    · have hmem : ev ∈ (main w).trace.filter Event.isFailure :=
        List.mem_filter.2 ⟨hev, hf⟩
      rw [hnone] at hmem
      simp at hmem
    · exact h1

/-- Witness for C6: the second catalog row fails to decode; and a run in which
no call fails. -/
theorem failure_is_fatal_and_immediate_witness :
    ((main ⟨none, none, [ScanOutcome.decoded "comments", ScanOutcome.failed "sql: Scan error"],
        none, none⟩).exitStatus = 1 ∧
      printedLines (main ⟨none, none,
        [ScanOutcome.decoded "comments", ScanOutcome.failed "sql: Scan error"],
        none, none⟩).trace = []) ∧
    (main ⟨none, none, [ScanOutcome.decoded "comments"], none, none⟩).exitStatus = 0 :=
  ⟨((failure_is_fatal_and_immediate
      ⟨none, none, [ScanOutcome.decoded "comments", ScanOutcome.failed "sql: Scan error"],
        none, none⟩).1
      [Event.sqlOpen "postgres" psqlInfo none, Event.dbQuery query none,
        Event.rowsNext true, Event.rowsScan none, Event.rowsNext true]
      (Event.rowsScan (some "sql: Scan error"))
      [Event.logFatal "sql: Scan error"] rfl rfl).2.2,
   (failure_is_fatal_and_immediate
      ⟨none, none, [ScanOutcome.decoded "comments"], none, none⟩).2 (by decide)⟩

/-- C7: when the query succeeds and every row decodes, `_getTables` returns
the decoded names, one per row and in the order of the rows; a result the
query yields in ascending order is returned in ascending order. -/
theorem getTables_returns_names_in_order (w : World) (names : List String)
    (hquery : w.queryErr = none) (hrows : w.rows = names.map ScanOutcome.decoded) :
    (_getTables w).2 = some names ∧
    (List.Sorted (fun a b : String => a ≤ b) names →
      ∃ tables, (_getTables w).2 = some tables ∧
        List.Sorted (fun a b : String => a ≤ b) tables) := by
  have h := getTables_decoded w names hquery hrows
  refine ⟨by rw [h], fun hs => ⟨names, by rw [h], hs⟩⟩

/-- Witness for C7: three rows in ascending order. -/
theorem getTables_returns_names_in_order_witness :
    (_getTables ⟨none, none, [ScanOutcome.decoded "comments", ScanOutcome.decoded "posts",
        ScanOutcome.decoded "users"], none, none⟩).2 = some ["comments", "posts", "users"] :=
  (getTables_returns_names_in_order
    ⟨none, none, [ScanOutcome.decoded "comments", ScanOutcome.decoded "posts",
        ScanOutcome.decoded "users"], none, none⟩
    ["comments", "posts", "users"] rfl rfl).1

/-- C8: in every run the program can make, the statements sent to the
database are the catalog query on `information_schema.tables` alone, or that
query followed by the one CREATE TABLE statement for `posts`; every
`stmt.Exec` call executes that CREATE TABLE statement, so no statement
inserts, updates, deletes or reads post records. -/
theorem statements_sent_by_run (w : World) (hrun : w.canOccur) :
    (statementsSent (main w).trace = [query] ∨
      statementsSent (main w).trace = [query, createStatement "posts"]) ∧
    query = "SELECT table_name\n\tFROM information_schema.tables\n\tWHERE table_schema = \x27public\x27\n\tORDER BY table_name;" ∧
    parseCreateTable (createStatement "posts") = some postsTable ∧
    (∀ q err, Event.stmtExec q err ∈ (main w).trace → q = createStatement "posts") := by
  have ho : w.openErr = none := hrun
  have hmq : ∀ (names : List String) (q : String) (err : Option String),
      Event.stmtExec q err ∉ queried names :=
    fun names q err hmem => by simpa [Event.isCatalogStep] using mem_queried names _ hmem
  refine ⟨?_, rfl, parse_createStatement, ?_⟩
  · rcases main_paths w with ⟨e, ho2, h⟩ | ⟨e, _, hq, h⟩ | ⟨names, e, rest, _, hq, hr, h⟩ |
      ⟨names, _, hq, hr, hm, h⟩ | ⟨names, e, _, hq, hr, hm, hp, h⟩ |
      ⟨names, e, _, hq, hr, hm, hp, he, h⟩ | ⟨names, _, hq, hr, hm, hp, he, h⟩
    · rw [ho] at ho2; simp at ho2
    · rw [h]; left; rfl
    all_goals
      rw [h]
      simp [statementsSent, statementsSent_append, statementsSent_queried,
        statementsSent_scanOk]
  · intro q err hmem
    rcases main_paths w with ⟨e, ho2, h⟩ | ⟨e, _, hq, h⟩ | ⟨names, e, rest, _, hq, hr, h⟩ |
      ⟨names, _, hq, hr, hm, h⟩ | ⟨names, e, _, hq, hr, hm, hp, h⟩ |
      ⟨names, e, _, hq, hr, hm, hp, he, h⟩ | ⟨names, _, hq, hr, hm, hp, he, h⟩
    · rw [h] at hmem; simp at hmem
    · rw [h] at hmem; simp at hmem
    all_goals
      rw [h] at hmem
      simp only [List.mem_append, List.mem_cons, List.mem_singleton, List.not_mem_nil,
        or_false, reduceCtorEq, false_or, hmq, Event.stmtExec.injEq] at hmem <;>
      exact hmem.1

/-- Witness for C8: an empty catalog, no call failing; the run sends the
catalog query and then the CREATE TABLE statement. -/
theorem statements_sent_by_run_witness :
    World.canOccur ⟨none, none, [], none, none⟩ ∧
    (statementsSent (main ⟨none, none, [], none, none⟩).trace = [query] ∨
      statementsSent (main ⟨none, none, [], none, none⟩).trace
        = [query, createStatement "posts"]) :=
  ⟨rfl, (statements_sent_by_run ⟨none, none, [], none, none⟩ rfl).1⟩

/-- C9: every `db.Prepare` call of `_createTable` carries the text below; it
reads as a CREATE TABLE statement for the table `posts` with the six columns
id SERIAL PRIMARY KEY, title TEXT, url TEXT, type TEXT, score INT and
timestamp TIMESTAMP in this order, and `id` is the only column with
constraint words. -/
theorem create_statement_defines_posts (w : World) (q : String) (err : Option String)
    (hcall : Event.dbPrepare q err ∈ (_createTable w).1) :
    q = "CREATE TABLE IF NOT EXISTS posts (\n\t\t\tid SERIAL PRIMARY KEY,\n\t\t\ttitle TEXT,\n\t\t\turl TEXT,\n\t\t\ttype TEXT,\n\t\t\tscore INT,\n\t\t\ttimestamp TIMESTAMP);" ∧
    parseCreateTable q = some
      { name := "posts"
        columns :=
          [ { name := "id", type := "SERIAL", constraints := ["PRIMARY", "KEY"] },
            { name := "title", type := "TEXT", constraints := [] },
            { name := "url", type := "TEXT", constraints := [] },
            { name := "type", type := "TEXT", constraints := [] },
            { name := "score", type := "INT", constraints := [] },
            { name := "timestamp", type := "TIMESTAMP", constraints := [] } ] } ∧
    ∀ t, parseCreateTable q = some t →
      (t.columns.filter (fun c => decide (c.constraints ≠ []))).map Column.name = ["id"] := by
  have hmq : ∀ (names : List String), Event.dbPrepare q err ∉ queried names :=
    fun names hmem => by simpa [Event.isCatalogStep] using mem_queried names _ hmem
  have hq : q = createStatement "posts" := by
    rcases createTable_paths w with ⟨e, hq, h⟩ | ⟨names, e, rest, hq, hr, h⟩ |
      ⟨names, hq, hr, hm, h⟩ | ⟨names, e, hq, hr, hm, hp, h⟩ |
      ⟨names, e, hq, hr, hm, hp, he, h⟩ | ⟨names, hq, hr, hm, hp, he, h⟩
    · rw [h] at hcall; simp at hcall
    all_goals
      rw [h] at hcall
      simp only [List.mem_append, List.mem_cons, List.mem_singleton, List.not_mem_nil,
        or_false, reduceCtorEq, false_or, hmq, Event.dbPrepare.injEq] at hcall <;>
      exact hcall.1
  subst hq
  refine ⟨by decide, parse_createStatement, ?_⟩
  intro t ht
  rw [parse_createStatement] at ht
  cases ht
  decide

/-- Witness for C9: an empty catalog, no call failing. -/
theorem create_statement_defines_posts_witness :
    createStatement "posts" = "CREATE TABLE IF NOT EXISTS posts (\n\t\t\tid SERIAL PRIMARY KEY,\n\t\t\ttitle TEXT,\n\t\t\turl TEXT,\n\t\t\ttype TEXT,\n\t\t\tscore INT,\n\t\t\ttimestamp TIMESTAMP);" :=
  (create_statement_defines_posts ⟨none, none, [], none, none⟩ (createStatement "posts") none
    (by decide)).1

/-- C10: every run starts with the one call `sql.Open("postgres", dsn)` whose
data source name is the fixed string below, whatever the world answers; no
other `sql.Open` call follows. -/
theorem connect_opens_fixed_dsn (w : World) :
    psqlInfo = "host=localhost port=54320 user=postgres password=password dbname=hn_db sslmode=disable" ∧
    ∃ rest, (main w).trace = Event.sqlOpen "postgres"
        "host=localhost port=54320 user=postgres password=password dbname=hn_db sslmode=disable"
        w.openErr :: rest ∧
      rest.filter Event.isOpen = [] := by
  have hdsn : psqlInfo
      = "host=localhost port=54320 user=postgres password=password dbname=hn_db sslmode=disable" := by
    decide
  refine ⟨hdsn, ?_⟩
  rw [← hdsn]
  rcases main_paths w with ⟨e, ho, h⟩ | ⟨e, ho, hq, h⟩ | ⟨names, e, rest, ho, hq, hr, h⟩ |
    ⟨names, ho, hq, hr, hm, h⟩ | ⟨names, e, ho, hq, hr, hm, hp, h⟩ |
    ⟨names, e, ho, hq, hr, hm, hp, he, h⟩ | ⟨names, ho, hq, hr, hm, hp, he, h⟩ <;>
  · rw [h, ho]
    refine ⟨_, rfl, ?_⟩
    simp [List.filter_append, filter_queried Event.isOpen rfl rfl rfl, List.filter_cons,
      Event.isOpen]

end HnEtl
